import Mathlib

/-!
Verification development for the `ai-chat` conversational glossary assistant.

This file gives a shallow embedding, in Lean 4, of the core logic of the
repository:

* the catalog entity normalizer `_extract_asset_attributes`
  (`src/atlan_client.py`),
* the deterministic fallback intent classifier `_fallback_intent_analysis`
  and the entity extractor `_extract_entities_fallback`
  (`src/conversation_manager.py`),
* the confirmation gate `should_ask_confirmation` and the turn dispatch of
  `handle_user_input` / the confirmation buttons of `main`
  (`src/conversation_manager.py`, `src/conversational_app.py`),
* the context-aware term extractor `_extract_term_from_query` and the
  glossary-term matching loop of `_handle_definition_query` /
  `_handle_asset_usage_query` (`src/v1_backup/query_processor.py`).

Python strings are modelled by Lean `String`, with the handful of Python
string operations the code uses (lower-casing, strip, whitespace split,
substring containment) re-implemented structurally over `String.data` so
that every definition evaluates inside the kernel.  Python dictionaries and
JSON-ish values are modelled by an inductive `JVal` type together with
association lists; `dict.get` returning `None` for a missing key is modelled
by a lookup that defaults to `JVal.jnull`, and Python truthiness by
`truthy`.  Python `a or b` is `pyOr`.  Exceptions swallowed by a
`try/except` are modelled with `Option`: `none` marks the exceptional path.
-/

namespace AiChat

/-! ## Python string primitives -/

/-- Python `str.lower()` (per character; the source only lower-cases ASCII
input). -/
def pyLower (s : String) : String := ⟨s.data.map Char.toLower⟩

/-- Whitespace characters recognised by Python `str.strip()` / `str.split()`
(the subset that can occur in chat input). -/
def wsChar (c : Char) : Bool := c == ' ' || c == '\t' || c == '\n' || c == '\r'

/-- Python `str.strip()`: drop leading and trailing whitespace. -/
def pyStrip (s : String) : String :=
  ⟨((s.data.dropWhile wsChar).reverse.dropWhile wsChar).reverse⟩

/-- `needle.isPrefixOf hay` over character lists, kernel-reducible. -/
def prefixChars : List Char → List Char → Bool
  | [], _ => true
  | _ :: _, [] => false
  | a :: as, b :: bs => a == b && prefixChars as bs

/-- `needle` occurs contiguously inside `hay`. -/
def containsChars (needle : List Char) : List Char → Bool
  | [] => needle.isEmpty
  | b :: bs => prefixChars needle (b :: bs) || containsChars needle bs

/-- Python `needle in hay` on strings (substring containment). -/
def inStr (needle hay : String) : Bool := containsChars needle.data hay.data

/-- Python `len(s)` (number of characters). -/
def pyLen (s : String) : Nat := s.data.length

/-- One step of Python `str.split()`: accumulate a word. -/
def splitWsAux : List Char → List Char → List String
  | [], acc => if acc.isEmpty then [] else [⟨acc.reverse⟩]
  | c :: cs, acc =>
      if wsChar c then
        if acc.isEmpty then splitWsAux cs [] else ⟨acc.reverse⟩ :: splitWsAux cs []
      else splitWsAux cs (c :: acc)

/-- Python `str.split()` with no argument: split on whitespace runs,
discarding empty pieces. -/
def pySplitWs (s : String) : List String := splitWsAux s.data []

/-- Python `s.split('(')[0]`: the prefix of `s` before the first `'('`
(the whole string when there is none). -/
def beforeParen (s : String) : String := ⟨s.data.takeWhile (fun c => c != '(')⟩

/-- Join words with single spaces: Python `" ".join(words)`. -/
def joinSpace : List String → String
  | [] => ""
  | [w] => w
  | w :: ws => w ++ " " ++ joinSpace ws

/-! ## JSON-ish values and Python dictionaries -/

/-- A Python/JSON value as it appears in catalog responses. -/
inductive JVal where
  | jnull
  | jbool (b : Bool)
  | jnum (n : Int)
  | jstr (s : String)
  | jarr (elems : List JVal)
  | jobj (fields : List (String × JVal))

/-- A Python dictionary with string keys. -/
abbrev Dict := List (String × JVal)

/-- `v is None` in Python. -/
def isNull : JVal → Bool
  | .jnull => true
  | _ => false

/-- Python truthiness of a value (`bool(v)`). -/
def truthy : JVal → Bool
  | .jnull => false
  | .jbool b => b
  | .jnum n => n != 0
  | .jstr s => s != ""
  | .jarr l => !l.isEmpty
  | .jobj f => !f.isEmpty

/-- Python `a or b`. -/
def pyOr (a b : JVal) : JVal := if truthy a then a else b

/-- Association-list lookup: `some v` when the key is present. -/
def pyGetOpt (d : Dict) (k : String) : Option JVal :=
  (d.find? (fun p => p.1 == k)).map (fun p => p.2)

/-- Python `d.get(k)`: `None` when the key is missing. -/
def pyGet (d : Dict) (k : String) : JVal := (pyGetOpt d k).getD .jnull

/-- Python `k in d` on dictionaries. -/
def hasKey (d : Dict) (k : String) : Bool := (pyGetOpt d k).isSome

/-! ## EntityNormalizer: `AtlanSDKClient._extract_asset_attributes`
(`src/atlan_client.py`, lines 936-1124)

The function receives one raw entity record.  If the record carries an
`attributes` key, that value is used as the attribute source, otherwise the
record itself is.  A dictionary of canonical fields is then built with
per-field `or`-fallback chains, the `description` field gets a final
readme-based fallback, and `None`-valued entries are dropped.  The whole
body runs inside `try/except`; the handler returns the empty dictionary
`{}`.  The body can actually raise in exactly two places: when the
`attributes` value is not a dictionary (`attributes.get(...)` /
`list(attributes.keys())` on a non-dict raises), and when the readme
fallback finds a readme whose `attributes` entry is present but not a
dictionary.  Both exceptional paths are modelled as `none`. -/

/-- `description` priority chain computed in the `result` literal:
`userDescription > description > longDescription > shortDescription`,
attributes before entity. -/
def descriptionChain (entity attrs : Dict) : JVal :=
  pyOr (pyGet attrs "userDescription")
    (pyOr (pyGet attrs "description")
      (pyOr (pyGet attrs "longDescription")
        (pyOr (pyGet attrs "shortDescription")
          (pyOr (pyGet entity "userDescription")
            (pyOr (pyGet entity "description")
              (pyOr (pyGet entity "longDescription")
                (pyGet entity "shortDescription")))))))

/-- The `readme` field of the `result` literal:
`attributes.get('readme') or entity.get('readme') or {}`. -/
def readmeChain (entity attrs : Dict) : JVal :=
  pyOr (pyGet attrs "readme") (pyOr (pyGet entity "readme") (.jobj []))

/-- The readme-based `description` fallback:

```
if not result['description'] and result.get('readme'):
    if isinstance(result['readme'], dict):
        readme_attrs = result['readme'].get('attributes', {})
        result['description'] = readme_attrs.get('description') or readme_attrs.get('content')
    elif isinstance(result['readme'], str):
        result['description'] = result['readme']
```

Returns the final `description` value, or `none` when `readme_attrs` is not
a dictionary (then `readme_attrs.get` raises and the `except` handler takes
over). -/
def readmeDescription (readmeV desc : JVal) : Option JVal :=
  if !truthy desc && truthy readmeV then
    match readmeV with
    | .jobj rf =>
        match (match pyGetOpt rf "attributes" with
               | none => JVal.jobj []
               | some v => v) with
        | .jobj raf => some (pyOr (pyGet raf "description") (pyGet raf "content"))
        | _ => none
    | .jstr s => some (.jstr s)
    | _ => some desc
  else some desc

/-- The `name` fallback chain of the `result` literal:
`attributes.get('name') or attributes.get('displayName') or
entity.get('displayText') or entity.get('name') or 'Unknown'`. -/
def nameChain (entity attrs : Dict) : JVal :=
  pyOr (pyGet attrs "name")
    (pyOr (pyGet attrs "displayName")
      (pyOr (pyGet entity "displayText")
        (pyOr (pyGet entity "name") (.jstr "Unknown"))))

/-- The `ownerUsers` chain: `attributes.get('ownerUsers') or
entity.get('ownerUsers') or []`. -/
def ownerUsersChain (entity attrs : Dict) : JVal :=
  pyOr (pyGet attrs "ownerUsers") (pyOr (pyGet entity "ownerUsers") (.jarr []))

/-- The `ownerGroups` chain. -/
def ownerGroupsChain (entity attrs : Dict) : JVal :=
  pyOr (pyGet attrs "ownerGroups") (pyOr (pyGet entity "ownerGroups") (.jarr []))

/-- The `meanings` chain. -/
def meaningsChain (entity attrs : Dict) : JVal :=
  pyOr (pyGet attrs "meanings") (pyOr (pyGet entity "meanings") (.jarr []))

/-- The `assetTags` chain. -/
def assetTagsChain (entity attrs : Dict) : JVal :=
  pyOr (pyGet attrs "assetTags") (pyOr (pyGet entity "assetTags") (.jarr []))

/-- The `categories` chain. -/
def categoriesChain (entity attrs : Dict) : JVal :=
  pyOr (pyGet attrs "categories") (pyOr (pyGet entity "categories") (.jarr []))

/-- The `examples` chain. -/
def examplesChain (entity attrs : Dict) : JVal :=
  pyOr (pyGet attrs "examples") (pyOr (pyGet entity "examples") (.jarr []))

/-- The `result` dictionary literal of `_extract_asset_attributes`, in source
order, with the (already finalised) `description` value passed in. -/
def resultFields (entity attrs : Dict) (desc : JVal) : Dict :=
  [("guid", pyOr (pyGet entity "guid") (pyGet attrs "guid")),
   ("typeName", pyOr (pyGet entity "typeName") (pyGet attrs "typeName")),
   ("name", nameChain entity attrs),
   ("displayName",
     pyOr (pyGet attrs "displayName")
       (pyOr (pyGet entity "displayText") (pyGet attrs "name"))),
   ("description", desc),
   ("userDescription",
     pyOr (pyGet attrs "userDescription") (pyGet entity "userDescription")),
   ("longDescription",
     pyOr (pyGet attrs "longDescription") (pyGet entity "longDescription")),
   ("qualifiedName",
     pyOr (pyGet attrs "qualifiedName") (pyGet entity "qualifiedName")),
   ("certificateStatus",
     pyOr (pyGet attrs "certificateStatus")
       (pyOr (pyGet attrs "certificationStatus")
         (pyOr (pyGet entity "certificateStatus")
           (pyOr (pyGet entity "certificationStatus") (pyGet entity "status"))))),
   ("ownerUsers", ownerUsersChain entity attrs),
   ("ownerGroups", ownerGroupsChain entity attrs),
   ("connectorName",
     pyOr (pyGet attrs "connectorName") (pyGet entity "connectorName")),
   ("connectionName",
     pyOr (pyGet attrs "connectionName") (pyGet entity "connectionName")),
   ("databaseName",
     pyOr (pyGet attrs "databaseName") (pyGet entity "databaseName")),
   ("schemaName",
     pyOr (pyGet attrs "schemaName") (pyGet entity "schemaName")),
   ("meanings", meaningsChain entity attrs),
   ("assetTags", assetTagsChain entity attrs),
   ("categories", categoriesChain entity attrs),
   ("readme", readmeChain entity attrs),
   ("announcementTitle",
     pyOr (pyGet attrs "announcementTitle") (pyGet entity "announcementTitle")),
   ("announcementMessage",
     pyOr (pyGet attrs "announcementMessage") (pyGet entity "announcementMessage")),
   ("examples", examplesChain entity attrs),
   ("abbreviation",
     pyOr (pyGet attrs "abbreviation") (pyGet entity "abbreviation")),
   ("termType",
     pyOr (pyGet attrs "termType") (pyGet entity "termType")),
   ("popularityScore",
     pyOr (pyGet attrs "popularityScore") (pyGet entity "popularityScore")),
   ("starredCount",
     pyOr (pyGet attrs "starredCount") (pyGet entity "starredCount")),
   ("viewScore",
     pyOr (pyGet attrs "viewScore") (pyGet entity "viewScore")),
   ("information",
     pyOr (pyGet attrs "information") (pyGet entity "information")),
   ("summary",
     pyOr (pyGet attrs "summary") (pyGet entity "summary")),
   ("notes",
     pyOr (pyGet attrs "notes") (pyGet entity "notes"))]

/-- `Clean up None values but keep empty strings and lists`. -/
def cleanResult (l : Dict) : Dict := l.filter (fun p => !isNull p.2)

/-- The attribute source: `entity['attributes']` when the key is present
(raising — `none` — when that value is not a dictionary), else the entity
itself. -/
def attributesSource (entity : Dict) : Option Dict :=
  if hasKey entity "attributes" then
    match pyGet entity "attributes" with
    | .jobj fs => some fs
    | _ => none
  else some entity

/-- `AtlanSDKClient._extract_asset_attributes`.  The `except` handler turns
either exceptional path into the empty dictionary `{}`. -/
def extractAssetAttributes (entity : Dict) : Dict :=
  match attributesSource entity with
  | none => []
  | some attrs =>
      match readmeDescription (readmeChain entity attrs) (descriptionChain entity attrs) with
      | none => []
      | some desc => cleanResult (resultFields entity attrs desc)

/-! ## EntityExtractor fallback: `ConversationManager._extract_entities_fallback`
(`src/conversation_manager.py`, lines 209-253) -/

/-- The `common_words` stop set. -/
def commonWords : List String :=
  ["define", "what", "is", "are", "the", "which", "assets", "linked", "to",
   "use", "tell", "me", "about", "show", "find", "search", "list", "get",
   "give", "provide", "explain", "describe"]

/-- Append the accumulated words as one entity when its joined length
exceeds 3 (`if len(entity) > 3: entities.append(entity)`). -/
def entityFlush (cur acc : List String) : List String :=
  if cur.isEmpty then acc
  else
    let e := joinSpace cur
    if 3 < pyLen e then acc ++ [e] else acc

/-- The word-grouping loop of `_extract_entities_fallback`: accumulate
non-stop-words of length > 2, flushing the group when a stop/short word is
hit, and once more at the end. -/
def entityWords : List String → List String → List String → List String
  | [], cur, acc => entityFlush cur acc
  | w :: ws, cur, acc =>
      if !(commonWords.contains (pyLower w)) && 2 < pyLen w then
        entityWords ws (cur ++ [w]) acc
      else
        entityWords ws [] (entityFlush cur acc)

/-- `ConversationManager._extract_entities_fallback`: hard-coded pattern
checks first (highest priority), then word-based grouping. -/
def extractEntitiesFallback (user_input : String) : List String :=
  let input_lower := pyLower user_input
  if inStr "customer acquisition cost" input_lower then ["Customer Acquisition Cost"]
  else if inStr "cac" input_lower then ["CAC"]
  else if inStr "customer lifetime value" input_lower then ["Customer Lifetime Value"]
  else if inStr "clv" input_lower then ["CLV"]
  else if inStr "customer acquisition" input_lower then ["Customer Acquisition"]
  else if inStr "customer lifetime" input_lower then ["Customer Lifetime"]
  else entityWords (pySplitWs user_input) [] []

/-! ## IntentClassifier fallback: `ConversationManager._fallback_intent_analysis`
(`src/conversation_manager.py`, lines 148-207)

The confidence literals `0.9`, `0.8`, `0.7`, `0.6`, `0.5`, `0.3` are exact
decimal constants that are only ever compared against each other, so they
are modelled as the corresponding rationals (given in lowest terms so that
every comparison reduces inside the kernel). -/

def conf03 : ℚ := ⟨3, 10, by norm_num, by norm_num⟩

def conf05 : ℚ := ⟨1, 2, by norm_num, by norm_num⟩

def conf06 : ℚ := ⟨3, 5, by norm_num, by norm_num⟩

def conf07 : ℚ := ⟨7, 10, by norm_num, by norm_num⟩

def conf08 : ℚ := ⟨4, 5, by norm_num, by norm_num⟩

def conf09 : ℚ := ⟨9, 10, by norm_num, by norm_num⟩

/-- The classifier result dictionary (the keys every branch of
`_fallback_intent_analysis` populates). -/
structure IntentAnalysis where
  intent : String
  entities : List String
  confidence : ℚ
  requiresConfirmation : Bool
  suggestedPhrasing : Option String
  explanation : String
deriving DecidableEq

/-- `list_terms` trigger keywords. -/
def listTermsKeywords : List String :=
  ["list", "show", "what terms", "available terms", "all terms", "terms available"]

/-- `define_term` trigger keywords. -/
def defineTermKeywords : List String :=
  ["define", "what is", "explain", "tell me about", "meaning of", "definition of"]

/-- `find_assets` trigger keywords. -/
def findAssetsKeywords : List String :=
  ["assets", "linked", "use", "which", "what are", "find", "search", "show me"]

/-- `any(word in input_lower for word in kws)`. -/
def containsAnyKeyword (kws : List String) (s : String) : Bool :=
  kws.any (fun w => inStr w s)

/-- `ConversationManager._fallback_intent_analysis`. -/
def fallbackIntentAnalysis (user_input : String) : IntentAnalysis :=
  let input_lower := pyLower user_input
  if containsAnyKeyword listTermsKeywords input_lower then
    ⟨"list_terms", [], conf09, false, none,
     "Detected intent to list terms using keyword matching"⟩
  else if containsAnyKeyword defineTermKeywords input_lower then
    let entities := extractEntitiesFallback user_input
    ⟨"define_term", entities, if !entities.isEmpty then conf08 else conf06,
     entities.length == 0, none,
     "Detected intent to define a term using keyword matching"⟩
  else if containsAnyKeyword findAssetsKeywords input_lower then
    let entities := extractEntitiesFallback user_input
    ⟨"find_assets", entities, if !entities.isEmpty then conf08 else conf06,
     entities.length == 0, none,
     "Detected intent to find assets using keyword matching"⟩
  else
    let entities := extractEntitiesFallback user_input
    if !entities.isEmpty then
      ⟨"define_term", entities, conf07, true,
       some ("Did you want to define \x27" ++ entities.headD "" ++
             "\x27 or find assets linked to it?"),
       "Found entities but intent unclear - defaulting to define_term"⟩
    else
      ⟨"unknown", [], conf03, false,
       some "Could you please rephrase your question? For example: \x27Define CAC\x27 or \x27Which assets use Customer Acquisition Cost?\x27",
       "Intent unclear - needs clarification"⟩

/-! ## Confirmation gate and turn dispatch
`ConversationManager.should_ask_confirmation` (`src/conversation_manager.py`,
lines 255-272) and the dispatch structure of `handle_user_input`
(`src/conversational_app.py`, lines 117-149). -/

/-- The intents eligible for a confirmation prompt. -/
def confirmableIntents : List String := ["define_term", "find_assets", "list_terms"]

/-- `ConversationManager.should_ask_confirmation`. -/
def shouldAskConfirmation (a : IntentAnalysis) : Bool :=
  if a.intent == "unknown" || decide (conf09 < a.confidence) then false
  else
    a.requiresConfirmation && decide (conf05 ≤ a.confidence) &&
      decide (a.confidence < conf09) && confirmableIntents.contains a.intent

/-- What a turn of `handle_user_input` does with a classification: ask for
confirmation, ask for clarification, or hand the intent to `process_intent`
immediately.  `process_intent` reads the intent and the entity list straight
from the classification dictionary, which `execute` records. -/
inductive TurnAction where
  | confirmationNeeded
  | clarificationNeeded
  | execute (intent : String) (entities : List String)
deriving DecidableEq

/-- The dispatch skeleton of `handle_user_input`: confirmation check first,
then the `unknown` clarification check, else `process_intent`. -/
def handleUserInputAction (a : IntentAnalysis) : TurnAction :=
  if shouldAskConfirmation a then .confirmationNeeded
  else if a.intent == "unknown" then .clarificationNeeded
  else .execute a.intent a.entities

/-! ## ConversationStateMachine: confirmation resolution
`ConversationContext` / `ConversationManager.update_context`
(`src/conversation_manager.py`, lines 25-33 and 298-304) and the
yes/no confirmation buttons of `main` (`src/conversational_app.py`,
lines 424-448). -/

/-- The mutable conversation state (message list omitted: the claims under
verification only concern the term/intent/pending fields). -/
structure ConvContext where
  currentTerm : Option String
  currentTermGuid : Option String
  lastIntent : Option String
  pendingConfirmation : Bool
  pendingQuery : Option IntentAnalysis
deriving DecidableEq

/-- `ConversationManager.update_context`. -/
def updateContext (ctx : ConvContext) (a : IntentAnalysis) (confirmed : Bool) :
    ConvContext :=
  if confirmed then
    { ctx with
      lastIntent := some a.intent
      currentTerm :=
        match a.entities with
        | [] => ctx.currentTerm
        | e :: _ => some e }
  else ctx

/-- Outcome of resolving a pending confirmation: the updated context, plus
the intent/entities handed to `process_intent` (when it is called at all). -/
structure ConfirmStep where
  ctx : ConvContext
  executed : Option (String × List String)
deriving DecidableEq

/-- The `No, let me rephrase` button: clear the two pending fields, nothing
else; `process_intent` and `update_context` are not called. -/
def confirmNo (ctx : ConvContext) : ConfirmStep :=
  { ctx := { ctx with pendingConfirmation := false, pendingQuery := none },
    executed := none }

/-- The `Yes, that is correct` button: take the stored classification out of
`pending_query`, clear the pending fields, apply `update_context` with
`confirmed=True`, and hand the stored classification to `process_intent`
(which reads intent and entities from that stored dictionary).  `none`
models the crash that would occur if the button ran with no stored query. -/
def confirmYes (ctx : ConvContext) : Option ConfirmStep :=
  match ctx.pendingQuery with
  | none => none
  | some pq =>
      let ctx1 : ConvContext :=
        { ctx with pendingConfirmation := false, pendingQuery := none }
      some { ctx := updateContext ctx1 pq true,
             executed := some (pq.intent, pq.entities) }

/-! ## v1 EntityExtractor: `QueryProcessor._extract_term_from_query`
(`src/v1_backup/query_processor.py`, lines 617-736)

The function first cleans the query, then returns early in one of three
cases in this order: the cleaned query is exactly a known abbreviation
(expanded via the table); the conversation context has a truthy
`last_discussed_term` and the cleaned query contains one of the anaphoric
`context_words` as a raw substring; same with one of the asset-usage
phrases.  Everything after those early returns (the regex pattern cascade,
business-term heuristics and n-gram fallback) is abstracted as an arbitrary
function `rest` of the original query and the cleaned query — the claims
under verification are all settled inside the early-return region, so they
are proved for every `rest`. -/

/-- The `abbreviation_mappings` table, in source (insertion) order. -/
def abbreviationMappings : List (String × String) :=
  [("cac", "customer acquisition cost"),
   ("ltv", "lifetime value"),
   ("cpa", "cost per acquisition"),
   ("cpc", "cost per click"),
   ("cpm", "cost per mille"),
   ("roi", "return on investment"),
   ("kpi", "key performance indicator")]

/-- The anaphoric `context_words`, in source order. -/
def contextWords : List String :=
  ["this term", "that term", "it", "the term", "this", "that"]

/-- The asset-usage phrases checked after the context words. -/
def assetUsagePhrases : List String :=
  ["assets use", "what uses", "which assets", "find assets"]

/-- `QueryProcessor._extract_term_from_query`, with the portion after the
early returns abstracted as `rest original_query clean_query`.
`lastDiscussed` models `context.get('last_discussed_term')` of a provided
context dictionary (the stored value is always a term-name string); the
`s != ""` test mirrors the Python truthiness check on it. -/
def extractTermFromQueryWith (rest : String → String → String)
    (query : String) (lastDiscussed : Option String) : String :=
  let clean_query := pyStrip (pyLower query)
  match abbreviationMappings.find? (fun p => pyStrip clean_query == p.1) with
  | some p => p.2
  | none =>
      match lastDiscussed with
      | some s =>
          if s != "" then
            if contextWords.any (fun w => inStr w clean_query) then s
            else if assetUsagePhrases.any (fun w => inStr w clean_query) then s
            else rest query clean_query
          else rest query clean_query
      | none => rest query clean_query

/-! ## TermResolver: the matching loop of
`QueryProcessor._handle_definition_query` (`src/v1_backup/query_processor.py`,
lines 187-216; the identical loop appears in `_handle_asset_usage_query`,
lines 272-306). -/

/-- A glossary search result as consumed by the matching loop; only the
`name` key is read (`t.get('name', '')` while matching,
`t.get('name', 'Unknown')` for the alternates list). -/
structure GlossaryRecord where
  name : Option String
deriving DecidableEq

/-- The per-candidate rules of the loop body, in source order: exact
lower-cased name match; match after stripping a parenthesized suffix
(`term_name.split('(')[0].strip()`); substring containment of the candidate
in the name, guarded by candidate length > 3. -/
def matchesGlossaryTerm (term_lower : String) (t : GlossaryRecord) : Bool :=
  let term_name := pyLower (t.name.getD "")
  if term_name == term_lower then true
  else if pyStrip (beforeParen term_name) == term_lower then true
  else inStr term_lower term_name && decide (3 < pyLen term_lower)

/-- The `for t in terms: ... break` loop: first candidate matching any rule. -/
def findExactMatch (term_lower : String) :
    List GlossaryRecord → Option GlossaryRecord
  | [] => none
  | t :: ts =>
      if matchesGlossaryTerm term_lower t then some t
      else findExactMatch term_lower ts

/-- The selection step of `_handle_definition_query`: the matched record, or
no record plus the names of the first 5 search results
(`[t.get('name', 'Unknown') for t in terms[:5]]`) for disambiguation. -/
def resolveTerm (term : String) (terms : List GlossaryRecord) :
    Option GlossaryRecord × List String :=
  match findExactMatch (pyLower term) terms with
  | some t => (some t, [])
  | none => (none, (terms.take 5).map (fun t => t.name.getD "Unknown"))

/-- Modelled from the spec wording of §4.4, for comparison with
`resolveTerm`: rule-priority matching over the whole candidate list, where
the first rule that yields *exactly one* match wins — rule 1 case-insensitive
exact name match, rule 2 exact match after stripping a trailing
parenthesized suffix, rule 3 substring containment in either direction,
considered only when the candidate is longer than 3 characters. -/
def specTermResolve (term : String) (terms : List GlossaryRecord) :
    Option GlossaryRecord :=
  let tl := pyLower term
  match terms.filter (fun t => pyLower (t.name.getD "") == tl) with
  | [t] => some t
  | _ =>
      match terms.filter (fun t => pyStrip (beforeParen (pyLower (t.name.getD ""))) == tl) with
      | [t] => some t
      | _ =>
          if 3 < pyLen tl then
            match terms.filter (fun t =>
                inStr tl (pyLower (t.name.getD "")) ||
                inStr (pyLower (t.name.getD "")) tl) with
            | [t] => some t
            | _ => none
          else none

/-! ## Shapes for the shape-invariance property (§8 of the spec)

A raw record carrying its descriptive fields at the top level, and the
equivalent record carrying them nested under `attributes`.  `displayText`
is an entity-level field in every fetch path (the normalizer only ever
reads it from the top level), so it stays at the top level in both
shapes. -/

/-- Flat shape: descriptive fields at the top level. -/
def flatRecord (n dn dt ud d ld sd : JVal) : Dict :=
  [("name", n), ("displayName", dn), ("displayText", dt),
   ("userDescription", ud), ("description", d),
   ("longDescription", ld), ("shortDescription", sd)]

/-- The `attributes` payload of the nested shape. -/
def nestedAttrs (n dn ud d ld sd : JVal) : Dict :=
  [("name", n), ("displayName", dn), ("userDescription", ud),
   ("description", d), ("longDescription", ld), ("shortDescription", sd)]

/-- Nested shape: the same descriptive fields under an `attributes` key. -/
def nestedRecord (n dn dt ud d ld sd : JVal) : Dict :=
  [("displayText", dt), ("attributes", .jobj (nestedAttrs n dn ud d ld sd))]

/-- A value that is either absent (`None`) or truthy — i.e. not a
present-but-falsy value such as the empty string. -/
def nullOrTruthy (v : JVal) : Bool := isNull v || truthy v

/-- `ConversationManager.analyze_intent`, at the granularity the claims
need: when the remote service is unreachable the deterministic fallback
runs; `llmPath` abstracts the whole remote-service branch. -/
def analyzeIntent (apiAvailable : Bool) (llmPath : String → IntentAnalysis)
    (user_input : String) : IntentAnalysis :=
  if apiAvailable then llmPath user_input else fallbackIntentAnalysis user_input

/-! # Theorems

First a toolbox of small lemmas about the Python-semantics helpers, then
one theorem (plus witness / counterexample where applicable) per claim. -/

/-! ## Toolbox -/

theorem truthy_not_null {v : JVal} (h : truthy v = true) : isNull v = false := by
  cases v <;> simp_all [truthy, isNull]

theorem truthy_pyOr_right {a b : JVal} (h : truthy b = true) :
    truthy (pyOr a b) = true := by
  by_cases ha : truthy a <;> simp [pyOr, ha, h]

theorem notNull_pyOr_right {a b : JVal} (h : isNull b = false) :
    isNull (pyOr a b) = false := by
  by_cases ha : truthy a
  · simp [pyOr, ha, truthy_not_null ha]
  · simp [pyOr, ha, h]

theorem null_of_nullOrTruthy {v : JVal} (h1 : nullOrTruthy v = true)
    (h2 : truthy v = false) : v = .jnull := by
  cases v <;> simp_all [nullOrTruthy, isNull, truthy]

theorem truthy_nameChain (e a : Dict) : truthy (nameChain e a) = true :=
  truthy_pyOr_right (truthy_pyOr_right (truthy_pyOr_right (truthy_pyOr_right rfl)))

theorem notNull_ownerUsersChain (e a : Dict) : isNull (ownerUsersChain e a) = false :=
  notNull_pyOr_right (notNull_pyOr_right rfl)

theorem notNull_ownerGroupsChain (e a : Dict) : isNull (ownerGroupsChain e a) = false :=
  notNull_pyOr_right (notNull_pyOr_right rfl)

theorem notNull_meaningsChain (e a : Dict) : isNull (meaningsChain e a) = false :=
  notNull_pyOr_right (notNull_pyOr_right rfl)

theorem notNull_assetTagsChain (e a : Dict) : isNull (assetTagsChain e a) = false :=
  notNull_pyOr_right (notNull_pyOr_right rfl)

theorem notNull_categoriesChain (e a : Dict) : isNull (categoriesChain e a) = false :=
  notNull_pyOr_right (notNull_pyOr_right rfl)

theorem notNull_examplesChain (e a : Dict) : isNull (examplesChain e a) = false :=
  notNull_pyOr_right (notNull_pyOr_right rfl)

theorem notNull_readmeChain (e a : Dict) : isNull (readmeChain e a) = false :=
  notNull_pyOr_right (notNull_pyOr_right rfl)

theorem find?_filter {α : Type} (p q : α → Bool) (l : List α) :
    (l.filter q).find? p = l.find? (fun a => p a && q a) := by
  induction l with
  | nil => rfl
  | cons a l ih =>
      cases hq : q a <;> cases hp : p a <;>
        simp [List.filter_cons, hq, hp, List.find?, ih]

theorem pyGetOpt_cleanResult (l : Dict) (k : String) :
    pyGetOpt (cleanResult l) k =
      (l.find? (fun p => p.1 == k && !isNull p.2)).map (fun p => p.2) := by
  unfold pyGetOpt cleanResult
  rw [find?_filter]

theorem lookup_clean_name (e a : Dict) (d : JVal) :
    pyGetOpt (cleanResult (resultFields e a d)) "name" =
      if isNull (nameChain e a) then none else some (nameChain e a) := by
  rw [pyGetOpt_cleanResult]
  unfold resultFields
  generalize nameChain e a = v
  cases v <;> rfl

theorem lookup_clean_description (e a : Dict) (d : JVal) :
    pyGetOpt (cleanResult (resultFields e a d)) "description" =
      if isNull d then none else some d := by
  rw [pyGetOpt_cleanResult]
  unfold resultFields
  cases d <;> rfl

theorem lookup_clean_ownerUsers (e a : Dict) (d : JVal) :
    pyGetOpt (cleanResult (resultFields e a d)) "ownerUsers" =
      if isNull (ownerUsersChain e a) then none else some (ownerUsersChain e a) := by
  rw [pyGetOpt_cleanResult]
  unfold resultFields
  generalize ownerUsersChain e a = v
  cases v <;> rfl

theorem lookup_clean_ownerGroups (e a : Dict) (d : JVal) :
    pyGetOpt (cleanResult (resultFields e a d)) "ownerGroups" =
      if isNull (ownerGroupsChain e a) then none else some (ownerGroupsChain e a) := by
  rw [pyGetOpt_cleanResult]
  unfold resultFields
  generalize ownerGroupsChain e a = v
  cases v <;> rfl

theorem lookup_clean_meanings (e a : Dict) (d : JVal) :
    pyGetOpt (cleanResult (resultFields e a d)) "meanings" =
      if isNull (meaningsChain e a) then none else some (meaningsChain e a) := by
  rw [pyGetOpt_cleanResult]
  unfold resultFields
  generalize meaningsChain e a = v
  cases v <;> rfl

theorem lookup_clean_assetTags (e a : Dict) (d : JVal) :
    pyGetOpt (cleanResult (resultFields e a d)) "assetTags" =
      if isNull (assetTagsChain e a) then none else some (assetTagsChain e a) := by
  rw [pyGetOpt_cleanResult]
  unfold resultFields
  generalize assetTagsChain e a = v
  cases v <;> rfl

theorem lookup_clean_categories (e a : Dict) (d : JVal) :
    pyGetOpt (cleanResult (resultFields e a d)) "categories" =
      if isNull (categoriesChain e a) then none else some (categoriesChain e a) := by
  rw [pyGetOpt_cleanResult]
  unfold resultFields
  generalize categoriesChain e a = v
  cases v <;> rfl

theorem lookup_clean_readme (e a : Dict) (d : JVal) :
    pyGetOpt (cleanResult (resultFields e a d)) "readme" =
      if isNull (readmeChain e a) then none else some (readmeChain e a) := by
  rw [pyGetOpt_cleanResult]
  unfold resultFields
  generalize readmeChain e a = v
  cases v <;> rfl

theorem lookup_clean_examples (e a : Dict) (d : JVal) :
    pyGetOpt (cleanResult (resultFields e a d)) "examples" =
      if isNull (examplesChain e a) then none else some (examplesChain e a) := by
  rw [pyGetOpt_cleanResult]
  unfold resultFields
  generalize examplesChain e a = v
  cases v <;> rfl

/-! ## Claims C1, C8, C9 - the entity normalizer -/

theorem readmeDescription_emptyObj (d : JVal) :
    readmeDescription (JVal.jobj []) d = some d := by
  cases h : truthy d <;> simp [readmeDescription, h, truthy]

/-- C1 (amended): the normalizer is total, but on its internal failure paths
it returns the empty record, with no name key at all; on every non-failing
record the name field is present and truthy. -/
theorem claim_C1_amended : ∀ entity : Dict,
    extractAssetAttributes entity = [] ∨
    truthy (pyGet (extractAssetAttributes entity) "name") = true := by
  intro e
  unfold extractAssetAttributes
  split
  · exact Or.inl rfl
  · split
    · exact Or.inl rfl
    · right
      rw [pyGet, lookup_clean_name]
      simp [truthy_not_null (truthy_nameChain _ _), truthy_nameChain]

/-- C1 counterexample: a record whose attributes value is a string drives
the body into the except handler, which returns the empty record - name is
not present, contradicting the claim that on internal failure a minimal
record with a name is returned rather than an empty record. -/
theorem claim_C1_counterexample :
    extractAssetAttributes [("attributes", JVal.jstr "glossary")] = [] ∧
    hasKey (extractAssetAttributes [("attributes", JVal.jstr "glossary")]) "name" = false :=
  ⟨rfl, rfl⟩

theorem extract_flatRecord (n dn dt ud d ld sd : JVal) :
    extractAssetAttributes (flatRecord n dn dt ud d ld sd) =
      cleanResult (resultFields (flatRecord n dn dt ud d ld sd)
        (flatRecord n dn dt ud d ld sd)
        (descriptionChain (flatRecord n dn dt ud d ld sd)
          (flatRecord n dn dt ud d ld sd))) := by
  rw [show extractAssetAttributes (flatRecord n dn dt ud d ld sd) =
      (match readmeDescription (JVal.jobj [])
          (descriptionChain (flatRecord n dn dt ud d ld sd)
            (flatRecord n dn dt ud d ld sd)) with
       | none => []
       | some desc =>
           cleanResult (resultFields (flatRecord n dn dt ud d ld sd)
             (flatRecord n dn dt ud d ld sd) desc)) from rfl]
  rw [readmeDescription_emptyObj]

theorem extract_nestedRecord (n dn dt ud d ld sd : JVal) :
    extractAssetAttributes (nestedRecord n dn dt ud d ld sd) =
      cleanResult (resultFields (nestedRecord n dn dt ud d ld sd)
        (nestedAttrs n dn ud d ld sd)
        (descriptionChain (nestedRecord n dn dt ud d ld sd)
          (nestedAttrs n dn ud d ld sd))) := by
  rw [show extractAssetAttributes (nestedRecord n dn dt ud d ld sd) =
      (match readmeDescription (JVal.jobj [])
          (descriptionChain (nestedRecord n dn dt ud d ld sd)
            (nestedAttrs n dn ud d ld sd)) with
       | none => []
       | some desc =>
           cleanResult (resultFields (nestedRecord n dn dt ud d ld sd)
             (nestedAttrs n dn ud d ld sd) desc)) from rfl]
  rw [readmeDescription_emptyObj]

theorem nameOr_eq (n dn dt : JVal) :
    pyOr n (pyOr dn (pyOr dt (pyOr n (JVal.jstr "Unknown")))) =
    pyOr n (pyOr dn (pyOr dt (pyOr JVal.jnull (JVal.jstr "Unknown")))) := by
  cases hn : truthy n with
  | true => simp [pyOr, hn]
  | false =>
      cases hdn : truthy dn with
      | true => simp [pyOr, hn, hdn]
      | false =>
          cases hdt : truthy dt with
          | true => simp [pyOr, hn, hdn, hdt]
          | false =>
              simp [pyOr, hn, hdn, hdt, show truthy JVal.jnull = false from rfl]

theorem descOr_eq (ud d ld sd : JVal) (hud : nullOrTruthy ud = true)
    (hd : nullOrTruthy d = true) (hld : nullOrTruthy ld = true)
    (hsd : nullOrTruthy sd = true) :
    pyOr ud (pyOr d (pyOr ld (pyOr sd (pyOr ud (pyOr d (pyOr ld sd)))))) =
    pyOr ud (pyOr d (pyOr ld (pyOr sd
      (pyOr JVal.jnull (pyOr JVal.jnull (pyOr JVal.jnull JVal.jnull)))))) := by
  cases hu : truthy ud with
  | true => simp [pyOr, hu]
  | false =>
      cases h2 : truthy d with
      | true => simp [pyOr, hu, h2]
      | false =>
          cases h3 : truthy ld with
          | true => simp [pyOr, hu, h2, h3]
          | false =>
              cases h4 : truthy sd with
              | true => simp [pyOr, hu, h2, h3, h4]
              | false =>
                  rw [null_of_nullOrTruthy hud hu, null_of_nullOrTruthy hd h2,
                      null_of_nullOrTruthy hld h3, null_of_nullOrTruthy hsd h4]

/-- C8 (amended): normalization is shape-invariant for name resolution
unconditionally, and for description resolution provided every description
source field is either absent or truthy (no present-but-falsy value such as
an empty string). -/
theorem claim_C8_amended : ∀ n dn dt ud d ld sd : JVal,
    (pyGetOpt (extractAssetAttributes (flatRecord n dn dt ud d ld sd)) "name" =
      pyGetOpt (extractAssetAttributes (nestedRecord n dn dt ud d ld sd)) "name") ∧
    (nullOrTruthy ud = true → nullOrTruthy d = true → nullOrTruthy ld = true →
     nullOrTruthy sd = true →
      pyGetOpt (extractAssetAttributes (flatRecord n dn dt ud d ld sd)) "description" =
        pyGetOpt (extractAssetAttributes (nestedRecord n dn dt ud d ld sd)) "description") := by
  intro n dn dt ud d ld sd
  constructor
  · rw [extract_flatRecord, extract_nestedRecord, lookup_clean_name, lookup_clean_name]
    rw [show nameChain (flatRecord n dn dt ud d ld sd) (flatRecord n dn dt ud d ld sd) =
        pyOr n (pyOr dn (pyOr dt (pyOr n (JVal.jstr "Unknown")))) from rfl]
    rw [show nameChain (nestedRecord n dn dt ud d ld sd) (nestedAttrs n dn ud d ld sd) =
        pyOr n (pyOr dn (pyOr dt (pyOr JVal.jnull (JVal.jstr "Unknown")))) from rfl]
    rw [nameOr_eq]
  · intro hud hd hld hsd
    rw [extract_flatRecord, extract_nestedRecord,
        lookup_clean_description, lookup_clean_description]
    rw [show descriptionChain (flatRecord n dn dt ud d ld sd) (flatRecord n dn dt ud d ld sd) =
        pyOr ud (pyOr d (pyOr ld (pyOr sd (pyOr ud (pyOr d (pyOr ld sd)))))) from rfl]
    rw [show descriptionChain (nestedRecord n dn dt ud d ld sd) (nestedAttrs n dn ud d ld sd) =
        pyOr ud (pyOr d (pyOr ld (pyOr sd
          (pyOr JVal.jnull (pyOr JVal.jnull (pyOr JVal.jnull JVal.jnull)))))) from rfl]
    rw [descOr_eq ud d ld sd hud hd hld hsd]

/-- C8 witness: shape invariance of the description resolution at a record
whose only description source is userDescription. -/
theorem claim_C8_witness :
    pyGetOpt (extractAssetAttributes
        (flatRecord .jnull .jnull .jnull (.jstr "user doc") .jnull .jnull .jnull))
        "description" =
      pyGetOpt (extractAssetAttributes
        (nestedRecord .jnull .jnull .jnull (.jstr "user doc") .jnull .jnull .jnull))
        "description" :=
  (claim_C8_amended .jnull .jnull .jnull (.jstr "user doc") .jnull .jnull .jnull).2
    (by decide) (by decide) (by decide) (by decide)

/-- C8 counterexample: an empty-string shortDescription is kept as the
description of the flat shape but dropped from the nested shape, so the two
shapes do not produce the same description resolution. -/
theorem claim_C8_counterexample :
    pyGetOpt (extractAssetAttributes [("shortDescription", JVal.jstr "")])
      "description" = some (JVal.jstr "") ∧
    pyGetOpt (extractAssetAttributes
        [("attributes", JVal.jobj [("shortDescription", JVal.jstr "")])])
      "description" = none :=
  ⟨rfl, rfl⟩

/-- C9 (amended): on every non-failing record the name field is present and
truthy (sentinel "Unknown" if nothing else), the seven defaulted fields
ownerUsers, ownerGroups, meanings, assetTags, categories, readme and
examples are always present (possibly empty), and no key of the output maps
to a null value. -/
theorem claim_C9_amended : ∀ e : Dict,
    extractAssetAttributes e = [] ∨
    (truthy (pyGet (extractAssetAttributes e) "name") = true ∧
     hasKey (extractAssetAttributes e) "ownerUsers" = true ∧
     hasKey (extractAssetAttributes e) "ownerGroups" = true ∧
     hasKey (extractAssetAttributes e) "meanings" = true ∧
     hasKey (extractAssetAttributes e) "assetTags" = true ∧
     hasKey (extractAssetAttributes e) "categories" = true ∧
     hasKey (extractAssetAttributes e) "readme" = true ∧
     hasKey (extractAssetAttributes e) "examples" = true ∧
     (∀ p ∈ extractAssetAttributes e, isNull p.2 = false)) := by
  intro e
  unfold extractAssetAttributes
  split
  · exact Or.inl rfl
  · split
    · exact Or.inl rfl
    · right
      refine ⟨?_, ?_, ?_, ?_, ?_, ?_, ?_, ?_, ?_⟩
      · rw [pyGet, lookup_clean_name]
        simp [truthy_not_null (truthy_nameChain _ _), truthy_nameChain]
      · simp only [hasKey, lookup_clean_ownerUsers, notNull_ownerUsersChain]
        rfl
      · simp only [hasKey, lookup_clean_ownerGroups, notNull_ownerGroupsChain]
        rfl
      · simp only [hasKey, lookup_clean_meanings, notNull_meaningsChain]
        rfl
      · simp only [hasKey, lookup_clean_assetTags, notNull_assetTagsChain]
        rfl
      · simp only [hasKey, lookup_clean_categories, notNull_categoriesChain]
        rfl
      · simp only [hasKey, lookup_clean_readme, notNull_readmeChain]
        rfl
      · simp only [hasKey, lookup_clean_examples, notNull_examplesChain]
        rfl
      · intro p hp
        have h := (List.mem_filter.mp hp).2
        simpa using h

/-- C9 counterexample: for the empty raw record the output also contains
meanings, assetTags, categories, readme and examples as empty values, and
no meaningNames key exists at all - contradicting the claim that besides
name only ownerUsers, ownerGroups and meaningNames are always present and
everything else absent is omitted. -/
theorem claim_C9_counterexample :
    extractAssetAttributes [] =
      [("name", JVal.jstr "Unknown"), ("ownerUsers", JVal.jarr []),
       ("ownerGroups", JVal.jarr []), ("meanings", JVal.jarr []),
       ("assetTags", JVal.jarr []), ("categories", JVal.jarr []),
       ("readme", JVal.jobj []), ("examples", JVal.jarr [])] ∧
    hasKey (extractAssetAttributes []) "assetTags" = true ∧
    hasKey (extractAssetAttributes []) "meaningNames" = false :=
  ⟨rfl, rfl, rfl⟩

/-! ## Claims C2, C5, C6 - classifier fallback, confirmation gate, state machine -/

/-- C2: the deterministic fallback classifier evaluates its keyword rules in
priority order with exactly the specified results: list-keywords give
list_terms, confidence 0.9, no confirmation; define-keywords (then
find-keywords) give confidence 0.8 when the entity extractor found entities,
else 0.6, with confirmation required exactly when the entity list is empty;
no keyword but entities found defaults to define_term, 0.7, confirmation
required; otherwise unknown with confidence 0.3 and a suggested rephrasing.
With the remote service unavailable, classify takes exactly this fallback
path. -/
theorem claim_C2 : ∀ user_input : String,
    (containsAnyKeyword listTermsKeywords (pyLower user_input) = true →
      fallbackIntentAnalysis user_input =
        ⟨"list_terms", [], conf09, false, none,
         "Detected intent to list terms using keyword matching"⟩) ∧
    (containsAnyKeyword listTermsKeywords (pyLower user_input) = false →
     containsAnyKeyword defineTermKeywords (pyLower user_input) = true →
      (fallbackIntentAnalysis user_input).intent = "define_term" ∧
      (fallbackIntentAnalysis user_input).entities = extractEntitiesFallback user_input ∧
      (fallbackIntentAnalysis user_input).confidence =
        (if extractEntitiesFallback user_input = [] then conf06 else conf08) ∧
      ((fallbackIntentAnalysis user_input).requiresConfirmation = true ↔
        extractEntitiesFallback user_input = [])) ∧
    (containsAnyKeyword listTermsKeywords (pyLower user_input) = false →
     containsAnyKeyword defineTermKeywords (pyLower user_input) = false →
     containsAnyKeyword findAssetsKeywords (pyLower user_input) = true →
      (fallbackIntentAnalysis user_input).intent = "find_assets" ∧
      (fallbackIntentAnalysis user_input).entities = extractEntitiesFallback user_input ∧
      (fallbackIntentAnalysis user_input).confidence =
        (if extractEntitiesFallback user_input = [] then conf06 else conf08) ∧
      ((fallbackIntentAnalysis user_input).requiresConfirmation = true ↔
        extractEntitiesFallback user_input = [])) ∧
    (containsAnyKeyword listTermsKeywords (pyLower user_input) = false →
     containsAnyKeyword defineTermKeywords (pyLower user_input) = false →
     containsAnyKeyword findAssetsKeywords (pyLower user_input) = false →
     extractEntitiesFallback user_input ≠ [] →
      (fallbackIntentAnalysis user_input).intent = "define_term" ∧
      (fallbackIntentAnalysis user_input).entities = extractEntitiesFallback user_input ∧
      (fallbackIntentAnalysis user_input).confidence = conf07 ∧
      (fallbackIntentAnalysis user_input).requiresConfirmation = true) ∧
    (containsAnyKeyword listTermsKeywords (pyLower user_input) = false →
     containsAnyKeyword defineTermKeywords (pyLower user_input) = false →
     containsAnyKeyword findAssetsKeywords (pyLower user_input) = false →
     extractEntitiesFallback user_input = [] →
      (fallbackIntentAnalysis user_input).intent = "unknown" ∧
      (fallbackIntentAnalysis user_input).entities = [] ∧
      (fallbackIntentAnalysis user_input).confidence = conf03 ∧
      (fallbackIntentAnalysis user_input).suggestedPhrasing.isSome = true) ∧
    (∀ llmPath : String → IntentAnalysis,
      analyzeIntent false llmPath "list all terms" =
        ⟨"list_terms", [], conf09, false, none,
         "Detected intent to list terms using keyword matching"⟩) := by
  intro q
  refine ⟨?_, ?_, ?_, ?_, ?_, ?_⟩
  · intro h1
    simp only [fallbackIntentAnalysis, h1, if_true]
  · intro h1 h2
    simp only [fallbackIntentAnalysis, h1, h2, Bool.false_eq_true, if_false, if_true]
    cases hes : extractEntitiesFallback q with
    | nil => simp
    | cons a l => simp
  · intro h1 h2 h3
    simp only [fallbackIntentAnalysis, h1, h2, h3, Bool.false_eq_true, if_false, if_true]
    cases hes : extractEntitiesFallback q with
    | nil => simp
    | cons a l => simp
  · intro h1 h2 h3 hne
    simp only [fallbackIntentAnalysis, h1, h2, h3, Bool.false_eq_true, if_false]
    cases hes : extractEntitiesFallback q with
    | nil => exact absurd hes hne
    | cons a l => simp
  · intro h1 h2 h3 hes
    simp only [fallbackIntentAnalysis, h1, h2, h3, hes, Bool.false_eq_true, if_false]
    simp
  · intro llmPath
    rfl

/-- C2 witness: the fallback classification of "list all terms". -/
theorem claim_C2_witness :
    fallbackIntentAnalysis "list all terms" =
      ⟨"list_terms", [], conf09, false, none,
       "Detected intent to list terms using keyword matching"⟩ :=
  (claim_C2 "list all terms").1 (by decide)

/-- C5: a confirmation prompt is issued if and only if requiresConfirmation
holds, the confidence lies in the interval from 0.5 inclusive to 0.9
exclusive, and the intent is one of define_term, find_assets, list_terms;
in particular never for an unknown intent or confidence above 0.9, and in
every non-confirmation, non-unknown case the intent is executed immediately
with the classification entities. -/
theorem claim_C5 : ∀ a : IntentAnalysis,
    (shouldAskConfirmation a = true ↔
      (a.requiresConfirmation = true ∧ conf05 ≤ a.confidence ∧
       a.confidence < conf09 ∧ a.intent ∈ confirmableIntents)) ∧
    (handleUserInputAction a = TurnAction.confirmationNeeded ↔
      shouldAskConfirmation a = true) ∧
    (shouldAskConfirmation a = false → a.intent ≠ "unknown" →
      handleUserInputAction a = TurnAction.execute a.intent a.entities) := by
  intro a
  have hmain : shouldAskConfirmation a = true ↔
      (a.requiresConfirmation = true ∧ conf05 ≤ a.confidence ∧
       a.confidence < conf09 ∧ a.intent ∈ confirmableIntents) := by
    unfold shouldAskConfirmation
    constructor
    · intro h
      by_cases hcond : (a.intent == "unknown" || decide (conf09 < a.confidence)) = true
      · rw [if_pos hcond] at h
        cases h
      · rw [if_neg hcond] at h
        have h' := h
        rw [Bool.and_eq_true, Bool.and_eq_true, Bool.and_eq_true] at h'
        obtain ⟨⟨⟨hr, hle⟩, hlt⟩, hmem⟩ := h'
        exact ⟨hr, of_decide_eq_true hle, of_decide_eq_true hlt, by simpa using hmem⟩
    · rintro ⟨hr, hle, hlt, hmem⟩
      have hne : a.intent ≠ "unknown" := by
        simp only [confirmableIntents, List.mem_cons, List.not_mem_nil, or_false] at hmem
        rcases hmem with h | h | h <;> simp [h]
      have hnotgt : ¬ (conf09 < a.confidence) := not_lt.mpr (le_of_lt hlt)
      have hcond : (a.intent == "unknown" || decide (conf09 < a.confidence)) = false := by
        simp [hne, hnotgt]
      rw [if_neg (by simp [hcond])]
      simp [hr, hle, hlt, hmem]
  refine ⟨hmain, ?_, ?_⟩
  · unfold handleUserInputAction
    by_cases hs : shouldAskConfirmation a = true
    · simp [hs]
    · simp only [Bool.not_eq_true] at hs
      simp only [hs, Bool.false_eq_true, if_false]
      by_cases hu : (a.intent == "unknown") = true
      · simp [hu, hs]
      · simp only [Bool.not_eq_true] at hu
        simp [hu, hs]
  · intro hs hu
    unfold handleUserInputAction
    simp [hs, hu]

/-- C5 witness: a moderate-confidence define_term classification asking for
confirmation triggers the confirmation action. -/
theorem claim_C5_witness :
    handleUserInputAction ⟨"define_term", [], conf06, true, none, "kw"⟩ =
      TurnAction.confirmationNeeded :=
  (claim_C5 _).2.1.mpr
    ((claim_C5 _).1.mpr ⟨rfl, by decide, by decide, by decide⟩)

/-- C6: once a classification is stored pending confirmation, the No reply
returns to idle with the pending item cleared, without executing and with
the current term (lastDiscussedTerm) unchanged, and the Yes reply executes
the stored intent with its original stored entities (the step takes no
reply text at all, so nothing can be re-extracted from it). -/
theorem claim_C6 : ∀ (ctx : ConvContext) (pq : IntentAnalysis),
    ctx.pendingQuery = some pq →
      (confirmNo ctx).ctx.pendingConfirmation = false ∧
      (confirmNo ctx).ctx.pendingQuery = none ∧
      (confirmNo ctx).executed = none ∧
      (confirmNo ctx).ctx.currentTerm = ctx.currentTerm ∧
      confirmYes ctx =
        some ⟨updateContext
            { ctx with pendingConfirmation := false, pendingQuery := none } pq true,
          some (pq.intent, pq.entities)⟩ := by
  intro ctx pq h
  refine ⟨rfl, rfl, rfl, rfl, ?_⟩
  unfold confirmYes
  rw [h]

/-- C6 witness: a concrete pending find_assets confirmation resolved both
ways. -/
theorem claim_C6_witness :
    (confirmNo ⟨some "Revenue", none, some "define_term", true,
        some ⟨"find_assets", ["Customer Acquisition Cost (CAC)"], conf06, true, none,
          "pending"⟩⟩).ctx.pendingConfirmation = false ∧
    (confirmNo ⟨some "Revenue", none, some "define_term", true,
        some ⟨"find_assets", ["Customer Acquisition Cost (CAC)"], conf06, true, none,
          "pending"⟩⟩).ctx.pendingQuery = none ∧
    (confirmNo ⟨some "Revenue", none, some "define_term", true,
        some ⟨"find_assets", ["Customer Acquisition Cost (CAC)"], conf06, true, none,
          "pending"⟩⟩).executed = none ∧
    (confirmNo ⟨some "Revenue", none, some "define_term", true,
        some ⟨"find_assets", ["Customer Acquisition Cost (CAC)"], conf06, true, none,
          "pending"⟩⟩).ctx.currentTerm = some "Revenue" ∧
    confirmYes ⟨some "Revenue", none, some "define_term", true,
        some ⟨"find_assets", ["Customer Acquisition Cost (CAC)"], conf06, true, none,
          "pending"⟩⟩ =
      some ⟨⟨some "Customer Acquisition Cost (CAC)", none, some "find_assets", false, none⟩,
        some ("find_assets", ["Customer Acquisition Cost (CAC)"])⟩ :=
  claim_C6
    ⟨some "Revenue", none, some "define_term", true,
      some ⟨"find_assets", ["Customer Acquisition Cost (CAC)"], conf06, true, none,
        "pending"⟩⟩
    ⟨"find_assets", ["Customer Acquisition Cost (CAC)"], conf06, true, none, "pending"⟩
    rfl

/-! ## Claims C3, C4 - abbreviation expansion and term resolution -/

/-- C3 counterexample: the conversation-manager entity extractor returns the
unexpanded ["CAC"] both for "what is CAC" and for the bare "cac", never
["Customer Acquisition Cost"] as the claim demands. -/
theorem claim_C3_counterexample :
    extractEntitiesFallback "what is CAC" = ["CAC"] ∧
    extractEntitiesFallback "what is CAC" ≠ ["Customer Acquisition Cost"] ∧
    extractEntitiesFallback "cac" ≠ ["Customer Acquisition Cost"] :=
  ⟨by decide, by decide, by decide⟩

/-- C3 (amended): the conversation-manager fallback extractor does not
expand abbreviations at all; only the v1 query-processor extractor expands
an utterance that is exactly a bare known abbreviation, and it expands to
the lower-case table entry "customer acquisition cost", not to the
title-cased term. -/
theorem claim_C3_amended :
    extractEntitiesFallback "what is CAC" = ["CAC"] ∧
    extractEntitiesFallback "cac" = ["CAC"] ∧
    (∀ (rest : String → String → String) (lastDiscussed : Option String),
      extractTermFromQueryWith rest "CAC" lastDiscussed = "customer acquisition cost" ∧
      extractTermFromQueryWith rest "cac" lastDiscussed = "customer acquisition cost") :=
  ⟨by decide, by decide, fun _ _ => ⟨rfl, rfl⟩⟩

theorem findExactMatch_eq_find? (tl : String) (ts : List GlossaryRecord) :
    findExactMatch tl ts = ts.find? (matchesGlossaryTerm tl) := by
  induction ts with
  | nil => rfl
  | cons t ts ih =>
      unfold findExactMatch
      cases h : matchesGlossaryTerm tl t with
      | true => simp [List.find?, h]
      | false => simp [List.find?, h, ih]

/-- C4 (amended): term resolution is candidate-major, not rule-major: the
selected record is the first search result that matches any of the three
rules, the rules being tried per candidate in the order exact /
parenthetical-stripped / substring-of-the-candidate-in-the-name with
candidate length > 3; when no candidate matches, no record is selected and
the alternates are the names of the first 5 search results.  The spec
example still selects the first record via the parenthetical rule. -/
theorem claim_C4_amended :
    (∀ (term : String) (terms : List GlossaryRecord),
      resolveTerm term terms =
        match terms.find? (matchesGlossaryTerm (pyLower term)) with
        | some t => (some t, [])
        | none => (none, (terms.take 5).map (fun t => t.name.getD "Unknown"))) ∧
    (resolveTerm "customer acquisition cost"
        [⟨some "Customer Acquisition Cost (CAC)"⟩, ⟨some "Customer Lifetime Value"⟩]).1 =
      some ⟨some "Customer Acquisition Cost (CAC)"⟩ := by
  constructor
  · intro term terms
    unfold resolveTerm
    rw [findExactMatch_eq_find?]
  · decide

/-- C4 counterexample: with an earlier substring-matching candidate and a
later exact-matching one the code selects the earlier one, whereas the
claimed first-rule-with-exactly-one-match priority selects the later; and
the claimed either-direction substring rule would select a record whose name
is contained in the candidate, which the code (candidate-in-name only) does
not match at all. -/
theorem claim_C4_counterexample :
    (resolveTerm "cac metric"
        [⟨some "the cac metric story"⟩, ⟨some "CAC Metric"⟩]).1 =
      some ⟨some "the cac metric story"⟩ ∧
    specTermResolve "cac metric"
        [⟨some "the cac metric story"⟩, ⟨some "CAC Metric"⟩] =
      some ⟨some "CAC Metric"⟩ ∧
    GlossaryRecord.mk (some "the cac metric story") ≠
      GlossaryRecord.mk (some "CAC Metric") ∧
    (resolveTerm "customer lifetime value extended"
        [⟨some "Customer Lifetime Value"⟩]).1 = none ∧
    specTermResolve "customer lifetime value extended"
        [⟨some "Customer Lifetime Value"⟩] =
      some ⟨some "Customer Lifetime Value"⟩ :=
  ⟨by decide, by decide, by decide, by decide, by decide⟩

/-! ## Claims C7, C10 - context-reference resolution in the v1 extractor -/

theorem prefixChars_subset : ∀ (n h : List Char), prefixChars n h = true → ∀ c ∈ n, c ∈ h := by
  intro n
  induction n with
  | nil => intro h _ c hc; cases hc
  | cons a as ih =>
      intro h hp c hc
      cases h with
      | nil => cases hp
      | cons b bs =>
          rw [show prefixChars (a :: as) (b :: bs) = (a == b && prefixChars as bs)
                from rfl,
              Bool.and_eq_true] at hp
          obtain ⟨hab, htail⟩ := hp
          rcases List.mem_cons.mp hc with rfl | hmem
          · have hcb : c = b := by simpa using hab
            exact hcb ▸ List.mem_cons_self _ _
          · exact List.mem_cons_of_mem _ (ih bs htail c hmem)

theorem containsChars_subset : ∀ (h n : List Char),
    containsChars n h = true → ∀ c ∈ n, c ∈ h := by
  intro h
  induction h with
  | nil =>
      intro n hc c hcn
      cases n with
      | nil => cases hcn
      | cons a as => cases hc
  | cons b bs ih =>
      intro n hc c hcn
      rw [show containsChars n (b :: bs) =
            (prefixChars n (b :: bs) || containsChars n bs) from rfl,
          Bool.or_eq_true] at hc
      rcases hc with hp | ht
      · exact prefixChars_subset n (b :: bs) hp c hcn
      · exact List.mem_cons_of_mem _ (ih n ht c hcn)

theorem mem_dropWhile_or (p : Char → Bool) :
    ∀ (l : List Char) (c : Char), c ∈ l → p c = true ∨ c ∈ l.dropWhile p := by
  intro l
  induction l with
  | nil => intro c hc; cases hc
  | cons a as ih =>
      intro c hc
      cases hpa : p a with
      | true =>
          rcases List.mem_cons.mp hc with rfl | hmem
          · exact Or.inl hpa
          · rcases ih c hmem with h | h
            · exact Or.inl h
            · exact Or.inr (by simp [List.dropWhile_cons, hpa, h])
      | false =>
          exact Or.inr (by simp [List.dropWhile_cons, hpa, hc])

theorem char_of_pyStrip (s : String) (c : Char) (hc : c ∈ s.data) :
    wsChar c = true ∨ c ∈ (pyStrip s).data := by
  rcases mem_dropWhile_or wsChar s.data c hc with hws | h1
  · exact Or.inl hws
  · have h2 : c ∈ (s.data.dropWhile wsChar).reverse := List.mem_reverse.mpr h1
    rcases mem_dropWhile_or wsChar _ c h2 with hws | h3
    · exact Or.inl hws
    · exact Or.inr (by
        show c ∈ ((s.data.dropWhile wsChar).reverse.dropWhile wsChar).reverse
        exact List.mem_reverse.mpr h3)

theorem extractTerm_marker (rest : String → String → String) (query last : String)
    (hlast : last ≠ "")
    (hmark : ∃ w, (w ∈ contextWords ∨ w ∈ assetUsagePhrases) ∧
      inStr w (pyStrip (pyLower query)) = true) :
    extractTermFromQueryWith rest query (some last) = last := by
  obtain ⟨w, hw, hws⟩ := hmark
  have key : ∀ p ∈ abbreviationMappings, pyStrip (pyStrip (pyLower query)) ≠ p.1 := by
    intro p hp heq
    have hchars : ∀ c ∈ w.data,
        wsChar c = true ∨ c ∈ (pyStrip (pyStrip (pyLower query))).data := by
      intro c hc
      exact char_of_pyStrip _ c (containsChars_subset _ _ hws c hc)
    rw [heq] at hchars
    simp only [abbreviationMappings, List.mem_cons, List.not_mem_nil, or_false] at hp
    simp only [contextWords, assetUsagePhrases, List.mem_cons, List.not_mem_nil,
      or_false] at hw
    rcases hp with rfl | rfl | rfl | rfl | rfl | rfl | rfl <;>
      rcases hw with (rfl | rfl | rfl | rfl | rfl | rfl) | (rfl | rfl | rfl | rfl) <;>
      exact absurd hchars (by decide)
  have hnone : abbreviationMappings.find?
      (fun p => pyStrip (pyStrip (pyLower query)) == p.1) = none := by
    rw [List.find?_eq_none]
    intro p hp
    simp [key p hp]
  unfold extractTermFromQueryWith
  simp only [hnone]
  have hbne : (last != "") = true := by simpa using hlast
  simp only [hbne, if_true]
  by_cases hctx : contextWords.any (fun m => inStr m (pyStrip (pyLower query))) = true
  · simp [hctx]
  · have hph : assetUsagePhrases.any (fun m => inStr m (pyStrip (pyLower query))) = true := by
      rcases hw with hcw | hpw
      · exact absurd (List.any_eq_true.mpr ⟨w, hcw, hws⟩) hctx
      · exact List.any_eq_true.mpr ⟨w, hpw, hws⟩
    simp [hctx, hph]

/-- C7: when the conversation context carries a truthy last-discussed term,
any utterance whose cleaned text contains an anaphoric marker or an
asset-usage phrase resolves to exactly the last discussed term, for every
behaviour of the post-context extraction stages. -/
theorem claim_C7 : ∀ (rest : String → String → String) (query last : String),
    last ≠ "" →
    (contextWords.any (fun w => inStr w (pyStrip (pyLower query))) = true ∨
     assetUsagePhrases.any (fun w => inStr w (pyStrip (pyLower query))) = true) →
    extractTermFromQueryWith rest query (some last) = last := by
  intro rest query last hlast hany
  apply extractTerm_marker rest query last hlast
  rcases hany with h | h
  · obtain ⟨w, hw, hws⟩ := List.any_eq_true.mp h
    exact ⟨w, Or.inl hw, hws⟩
  · obtain ⟨w, hw, hws⟩ := List.any_eq_true.mp h
    exact ⟨w, Or.inr hw, hws⟩

/-- C7 witness: "which assets use this term?" resolves to the stored
"Customer Acquisition Cost (CAC)". -/
theorem claim_C7_witness :
    extractTermFromQueryWith (fun _ _ => "") "which assets use this term?"
      (some "Customer Acquisition Cost (CAC)") = "Customer Acquisition Cost (CAC)" :=
  claim_C7 (fun _ _ => "") "which assets use this term?"
    "Customer Acquisition Cost (CAC)" (by decide) (Or.inl (by decide))

/-- C10: anaphoric-marker detection is raw substring containment, not
word-boundary matching: with a truthy last-discussed term, any cleaned
utterance that is not exactly a known abbreviation and contains "it",
"this" or "that" anywhere - even inside a longer word - resolves to the
last discussed term, ignoring any new term named in the utterance. -/
theorem claim_C10 : ∀ (rest : String → String → String) (query last : String),
    last ≠ "" →
    (∀ p ∈ abbreviationMappings, pyStrip (pyLower query) ≠ p.1) →
    (inStr "it" (pyStrip (pyLower query)) = true ∨
     inStr "this" (pyStrip (pyLower query)) = true ∨
     inStr "that" (pyStrip (pyLower query)) = true) →
    extractTermFromQueryWith rest query (some last) = last := by
  intro rest query last hlast _ hmark
  apply extractTerm_marker rest query last hlast
  rcases hmark with h | h | h
  · exact ⟨"it", Or.inl (by decide), h⟩
  · exact ⟨"this", Or.inl (by decide), h⟩
  · exact ⟨"that", Or.inl (by decide), h⟩

/-- C10 witness: "define profitability" contains "it" inside
"profitability" and is hijacked to the stored term. -/
theorem claim_C10_witness :
    extractTermFromQueryWith (fun _ _ => "") "define profitability"
      (some "Customer Acquisition Cost (CAC)") = "Customer Acquisition Cost (CAC)" :=
  claim_C10 (fun _ _ => "") "define profitability" "Customer Acquisition Cost (CAC)"
    (by decide) (by decide) (Or.inl (by decide))

end AiChat
